import Mathlib

/-!
Verification of the Task_Guardian scheduling/execution/marker-gating core.

The Lean definitions below are a shallow embedding of the Python sources
(`task_guardian/store.py`, `task_guardian/executor.py`,
`task_guardian/task_runner.py`).  Conventions of the embedding:

* Timestamps are stored by the program as UTC ISO-8601 strings and compared
  by SQLite as text; the spec (section 4.2) notes this comparison is
  lexicographic-equivalent to chronological.  The embedding therefore uses
  `Nat` for timestamps, keeping exactly the order structure the code relies on.
* The SQLite tables become Lean lists of records; `INSERT` appends,
  `UPDATE ... WHERE` maps over rows, `SELECT ... ORDER BY k ASC LIMIT n`
  becomes filter, sort by `k`, take `n`.
* A Python function that can raise is embedded with an `Except` result;
  wall-clock reads (`utc_now_iso`) become explicit parameters.
* The external subprocess boundary is abstracted by `ActionOutcome`:
  the command completed with a return code and captured output, the
  configured timeout elapsed (Python raises `TimeoutExpired`), or some other
  execution error was raised.
-/

namespace TaskGuardian

/-- ASCII lower-casing, character by character: the semantics of Python
`str.lower` on the ASCII policy names the code normalises. -/
def strLower (s : String) : String := ⟨s.data.map Char.toLower⟩

/-- Python `str.strip`: drop whitespace from both ends. -/
def strTrim (s : String) : String :=
  ⟨((s.data.dropWhile Char.isWhitespace).reverse.dropWhile Char.isWhitespace).reverse⟩

/-- ASCII upper-casing, the semantics of Python `str.upper` on the tier and
status strings it is applied to. -/
def strUpper (s : String) : String := ⟨s.data.map Char.toUpper⟩

/-- UTC timestamps; see the module comment for why `Nat` is a faithful model
of the ISO-8601 text column. -/
abbrev Timestamp := Nat

/-- Row of the `tasks` table / the `Task` dataclass in `store.py`. -/
structure Task where
  id : String
  name : String
  tool : String
  params_json : String
  schedule : String
  expected : String
  verify : String
  output_path : String
  enabled : Bool
  created_at : Timestamp
  updated_at : Timestamp
  next_run_at : Option Timestamp
deriving DecidableEq

/-- Row of the `runs` table / the `RunRecord` dataclass in `store.py`.
`meta` models the JSON object stored in `meta_json`, with scalar values
rendered as strings. -/
structure RunRecord where
  run_id : String
  task_id : String
  status : String
  started_at : Timestamp
  finished_at : Option Timestamp
  message : String
  output_path : String
  meta : List (String × String)
deriving DecidableEq

/-- Row of the `markers` table. -/
structure Marker where
  marker_id : String
  name : String
  status : String
  created_at : Timestamp
  closed_at : Option Timestamp
deriving DecidableEq

/-- Row of the `marker_tasks` association table. -/
structure MarkerTask where
  marker_id : String
  task_id : String
  added_at : Timestamp
deriving DecidableEq

/-- The whole SQLite database owned by `TaskStore`. -/
structure Store where
  tasks : List Task
  runs : List RunRecord
  markers : List Marker
  marker_tasks : List MarkerTask
deriving DecidableEq

/-- The one error that `store.py` raises by itself: the ValueError carrying
the marker-not-found message, called `MarkerNotFound` in the spec. -/
inductive StoreError where
  | markerNotFound (name : String)
deriving DecidableEq

/-- Models `TaskStore.upsert_task`: `INSERT ... ON CONFLICT(id) DO UPDATE` replacing
every column except `id` and `created_at`.  `now` is the single
`utc_now_iso()` read the Python method makes. -/
def upsert_task (st : Store) (now : Timestamp) (task_id nm tool params_json
    schedule expected vrfy output_path : String) (enabled : Bool)
    (next_run_at : Option Timestamp) : Store :=
  if st.tasks.any (fun t => decide (t.id = task_id)) then
    { st with tasks := st.tasks.map fun t =>
        if t.id = task_id then
          { t with
            name := nm
            tool := tool
            params_json := params_json
            schedule := schedule
            expected := expected
            verify := vrfy
            output_path := output_path
            enabled := enabled
            updated_at := now
            next_run_at := next_run_at }
        else t }
  else
    { st with tasks := st.tasks ++
        [⟨task_id, nm, tool, params_json, schedule, expected, vrfy,
          output_path, enabled, now, now, next_run_at⟩] }

/-- The WHERE clause of `due_tasks`: `enabled=1 AND (next_run_at IS NULL OR
next_run_at <= now)`. -/
def isDue (now : Timestamp) (t : Task) : Bool :=
  t.enabled && (match t.next_run_at with
    | none => true
    | some s => decide (s ≤ now))

/-- The sort key `COALESCE(next_run_at, created_at)` of the due queries. -/
def dueKey (t : Task) : Timestamp := t.next_run_at.getD t.created_at

/-- The clause `ORDER BY COALESCE(next_run_at, created_at) ASC`. -/
def orderByDueKey (l : List Task) : List Task :=
  List.insertionSort (fun a b => dueKey a ≤ dueKey b) l

/-- Models `TaskStore.due_tasks(now, limit)`. -/
def due_tasks (st : Store) (now : Timestamp) (limit : Nat) : List Task :=
  (orderByDueKey (st.tasks.filter (isDue now))).take limit

/-- Models `TaskStore.set_next_run`; `now` is its fresh `utc_now_iso()` read used
for `updated_at`. -/
def set_next_run (st : Store) (now : Timestamp) (task_id : String)
    (next_run_at : Option Timestamp) : Store :=
  { st with tasks := st.tasks.map fun t =>
      if t.id = task_id then { t with next_run_at := next_run_at, updated_at := now }
      else t }

/-- Models `TaskStore.create_run`: INSERT a fresh row in state `running` with
`finished_at` NULL and empty message. -/
def create_run (st : Store) (run_id task_id : String) (started_at : Timestamp)
    (output_path : String) (meta : List (String × String)) : Store :=
  { st with runs := st.runs ++
      [⟨run_id, task_id, "running", started_at, none, "", output_path, meta⟩] }

/-- Python `dict` update of a single key: replace in place or append. -/
def metaSet (meta : List (String × String)) (k v : String) :
    List (String × String) :=
  if meta.any (fun p => decide (p.1 = k)) then
    meta.map fun p => if p.1 = k then (k, v) else p
  else meta ++ [(k, v)]

/-- Models `meta.update(meta_updates)` in `finish_run`. -/
def metaMerge (meta updates : List (String × String)) :
    List (String × String) :=
  updates.foldl (fun acc kv => metaSet acc kv.1 kv.2) meta

/-- Models `TaskStore.finish_run`: merge the meta updates into the stored meta and
UPDATE status, message and finished_at of the row. -/
def finish_run (st : Store) (run_id status message : String)
    (finished_at : Timestamp) (meta_updates : List (String × String)) : Store :=
  { st with runs := st.runs.map fun r =>
      if r.run_id = run_id then
        { r with
          status := status
          message := message
          finished_at := some finished_at
          meta := metaMerge r.meta meta_updates }
      else r }

/-- Models `TaskStore.get_marker`: `SELECT * FROM markers WHERE name=?` (the name
column is UNIQUE, so the first hit is the row). -/
def get_marker (st : Store) (nm : String) : Option Marker :=
  st.markers.find? (fun m => decide (m.name = nm))

/-- Models `TaskStore.create_marker`. -/
def create_marker (st : Store) (now : Timestamp) (marker_id nm : String) :
    Store :=
  { st with markers := st.markers ++ [⟨marker_id, nm, "active", now, none⟩] }

/-- Models `TaskStore.close_marker`: an unconditional UPDATE on the markers
table, filtered by name, setting the status to closed and stamping
closed_at.  The method performs no existence check and never raises, so the
`Except` is always `ok`; on an unknown name the UPDATE simply matches no
row. -/
def close_marker (st : Store) (now : Timestamp) (nm : String) :
    Except StoreError Store :=
  Except.ok { st with markers := st.markers.map fun m =>
      if m.name = nm then { m with status := "closed", closed_at := some now }
      else m }

/-- Models `TaskStore.add_task_to_marker`: raises `MarkerNotFound` when the name
does not resolve; otherwise `INSERT OR IGNORE` into `marker_tasks` (the
(marker_id, task_id) primary key makes re-insertion a no-op).  SQLite does
not enforce the declared foreign key on task_id (the connection never turns
`PRAGMA foreign_keys` on), so no check against `tasks` happens. -/
def add_task_to_marker (st : Store) (now : Timestamp) (marker_name task_id : String) :
    Except StoreError Store :=
  match get_marker st marker_name with
  | none => Except.error (StoreError.markerNotFound marker_name)
  | some m =>
    if st.marker_tasks.any (fun mt =>
        decide (mt.marker_id = m.marker_id) && decide (mt.task_id = task_id)) then
      Except.ok st
    else
      Except.ok { st with marker_tasks := st.marker_tasks ++ [⟨m.marker_id, task_id, now⟩] }

/-- Models `TaskStore.remove_task_from_marker`. -/
def remove_task_from_marker (st : Store) (marker_name task_id : String) :
    Except StoreError Store :=
  match get_marker st marker_name with
  | none => Except.error (StoreError.markerNotFound marker_name)
  | some m =>
    Except.ok { st with marker_tasks := st.marker_tasks.filter fun mt =>
        !(decide (mt.marker_id = m.marker_id) && decide (mt.task_id = task_id)) }

/-- The member task ids of a marker row:
`SELECT task_id FROM marker_tasks WHERE marker_id=? ORDER BY added_at ASC`. -/
def marker_member_ids (st : Store) (m : Marker) : List String :=
  (List.insertionSort (fun a b : MarkerTask => a.added_at ≤ b.added_at)
    (st.marker_tasks.filter fun mt => decide (mt.marker_id = m.marker_id))).map
    (fun mt => mt.task_id)

/-- Models `TaskStore.marker_tasks`: member ids, raising `MarkerNotFound` on an
unknown name. -/
def marker_tasks (st : Store) (marker_name : String) :
    Except StoreError (List String) :=
  match get_marker st marker_name with
  | none => Except.error (StoreError.markerNotFound marker_name)
  | some m => Except.ok (marker_member_ids st m)

/-- Models `TaskStore.list_markers`: `ORDER BY created_at DESC LIMIT ?`. -/
def list_markers (st : Store) (limit : Nat) : List Marker :=
  (List.insertionSort (fun a b : Marker => b.created_at ≤ a.created_at)
    st.markers).take limit

/-- Membership test of the due-for-marker join: the task is reachable from
the marker row through `marker_tasks` (the primary key of the association means
the SQL join produces each task at most once here). -/
def memberOfMarker (st : Store) (m : Marker) (t : Task) : Bool :=
  st.marker_tasks.any fun mt =>
    decide (mt.marker_id = m.marker_id) && decide (mt.task_id = t.id)

/-- Models `TaskStore.due_tasks_for_marker`: empty when the marker is absent or not
active, otherwise the due query restricted to the members of the marker. -/
def due_tasks_for_marker (st : Store) (marker_name : String) (now : Timestamp)
    (limit : Nat) : List Task :=
  match get_marker st marker_name with
  | none => []
  | some m =>
    if m.status ≠ "active" then []
    else (orderByDueKey (st.tasks.filter fun t =>
        memberOfMarker st m t && isDue now t)).take limit

/-- The join condition of `due_tasks_active_markers_only`: some association
row links the task to some marker row in state `active`. -/
def isUnderActiveMarker (st : Store) (t : Task) : Bool :=
  st.marker_tasks.any fun mt =>
    decide (mt.task_id = t.id) && st.markers.any fun m =>
      decide (m.marker_id = mt.marker_id) && decide (m.status = "active")

/-- Models `TaskStore.due_tasks_active_markers_only`: `SELECT DISTINCT` of the due
tasks joined through active markers (the `tasks.id` primary key means each
task contributes one row after DISTINCT). -/
def due_tasks_active_markers_only (st : Store) (now : Timestamp) (limit : Nat) :
    List Task :=
  (orderByDueKey (st.tasks.filter fun t =>
    isUnderActiveMarker st t && isDue now t)).take limit

/-- The per-run filter of the latest-run query in `marker_status`:
`task_id=? AND started_at >= marker.created_at`. -/
def qualifies (watermark : Timestamp) (tid : String) (r : RunRecord) : Bool :=
  decide (r.task_id = tid) && decide (watermark ≤ r.started_at)

/-- One step of scanning for the maximal `started_at`. -/
def laterRun (acc : Option RunRecord) (r : RunRecord) : Option RunRecord :=
  match acc with
  | none => some r
  | some b => if decide (b.started_at < r.started_at) then some r else some b

/-- The clause `ORDER BY started_at DESC LIMIT 1` over the qualifying runs: the
qualifying run with the maximal `started_at` (first such run on ties). -/
def latest_qualifying_run (runs : List RunRecord) (tid : String)
    (watermark : Timestamp) : Option RunRecord :=
  (runs.filter (qualifies watermark tid)).foldl laterRun none

/-- One entry of the `tasks` list in the marker status report. -/
structure MemberReport where
  task_id : String
  state : String
  latest : Option (Timestamp × String)
deriving DecidableEq

/-- The row `marker_status` appends for one member task. -/
def member_report (runs : List RunRecord) (watermark : Timestamp)
    (tid : String) : MemberReport :=
  match latest_qualifying_run runs tid watermark with
  | none => ⟨tid, "missing", none⟩
  | some r => ⟨tid, r.status, some (r.started_at, r.message)⟩

/-- Whether one member keeps `ok_all` true in the `marker_status` loop: a
qualifying run exists and the latest one has status `success`. -/
def member_ok (runs : List RunRecord) (watermark : Timestamp)
    (tid : String) : Bool :=
  match latest_qualifying_run runs tid watermark with
  | none => false
  | some r => decide (r.status = "success")

/-- The dictionary `marker_status` returns. -/
structure MarkerReport where
  marker : Marker
  green : Bool
  tasks : List MemberReport
deriving DecidableEq

/-- Models `TaskStore.marker_status`: `MarkerNotFound` on an unknown name;
otherwise the per-member loop, with `green = bool(ok_all) if task_ids else
False` (`ok_all` accumulates exactly the conjunction over members). -/
def marker_status (st : Store) (marker_name : String) :
    Except StoreError MarkerReport :=
  match get_marker st marker_name with
  | none => Except.error (StoreError.markerNotFound marker_name)
  | some m =>
    let tids := marker_member_ids st m
    Except.ok
      { marker := m
        green := if tids.isEmpty then false
                 else tids.all (member_ok st.runs m.created_at)
        tasks := tids.map (member_report st.runs m.created_at) }

/-! ## Executor (`executor.py`) -/

/-- The filesystem seen through `_write_output` and the verifiers: a map
from paths to text contents. -/
abbrev FS := List (String × String)

/-- Content lookup for a path. -/
def fsRead (fs : FS) (path : String) : Option String :=
  (fs.find? fun p => decide (p.1 = path)).map (fun p => p.2)

/-- Models `Path.exists()`. -/
def fileExists (fs : FS) (path : String) : Bool := (fsRead fs path).isSome

/-- Models `Path.stat().st_size` of a file written with UTF-8 encoding (0 when the
file does not exist, only used guarded by `fileExists`). -/
def fileSize (fs : FS) (path : String) : Nat :=
  match fsRead fs path with
  | none => 0
  | some c => c.utf8ByteSize

/-- Models `_write_output` in `executor.py`: create parents as needed and write the text verbatim,
replacing any previous content. -/
def write_output (fs : FS) (path text : String) : FS :=
  (path, text) :: fs.filter fun p => !(decide (p.1 = path))

/-- Models `verify_file_exists`: success iff the file exists and has nonzero size. -/
def verify_file_exists (fs : FS) (output_path : String) : Bool × String :=
  let ok := fileExists fs output_path && decide (0 < fileSize fs output_path)
  (ok, (if ok then "Output file exists: " else "Output file missing: ") ++ output_path)

/-- Models `verify_exit_code_0`: the same physical check as `verify_file_exists`,
with a different message. -/
def verify_exit_code_0 (fs : FS) (output_path : String) : Bool × String :=
  let ok := fileExists fs output_path && decide (0 < fileSize fs output_path)
  (ok, if ok then "Exit code verification: passed" else "Exit code verification: failed")

/-- Models `verifier(name)`: normalise the policy name (`None`/empty falls back to
`file_exists`, then strip + lower) and dispatch; an unknown policy becomes a
constant failing verifier. -/
def verifier (nm : String) : FS → String → Bool × String :=
  let n := strLower (strTrim (if nm = "" then "file_exists" else nm))
  if n = "file_exists" then verify_file_exists
  else if n = "exit_code_0" then verify_exit_code_0
  else fun _ _ => (false, "Unknown verify type: " ++ n)

/-- What one `subprocess.run(cmd, timeout=...)` call did, seen from the
caller: completion with a return code and captured streams, expiry of the
timeout (Python raises `TimeoutExpired`), or another raised error. -/
inductive ActionOutcome where
  | completed (returncode : Int) (stdout : String) (stderr : String)
  | timedOut
  | raised (msg : String)
deriving DecidableEq

/-- Whether the subprocess call raises instead of completing. -/
def action_raises : ActionOutcome → Bool
  | ActionOutcome.completed _ _ _ => false
  | ActionOutcome.timedOut => true
  | ActionOutcome.raised _ => true

/-- The exception text propagated by a raising outcome. -/
def raise_message : ActionOutcome → String
  | ActionOutcome.completed _ _ _ => ""
  | ActionOutcome.timedOut => "TimeoutExpired"
  | ActionOutcome.raised msg => msg

/-- The meta dict `run_subprocess_and_capture` builds. -/
def subprocessMeta (returncode : Int) (stdout stderr : String) :
    List (String × String) :=
  [("returncode", toString returncode),
   ("stdout_len", toString stdout.length),
   ("stderr_len", toString stderr.length)]

/-- Models `run_subprocess_and_capture`: on completion, capture stdout (with stderr
appended after a separator when present) and report `ok = (returncode ==
0)`; a timeout or unexpected error propagates as an exception. -/
def run_subprocess_and_capture (outcome : ActionOutcome) :
    Except String (Bool × String × Int) :=
  match outcome with
  | ActionOutcome.completed rc out err =>
    Except.ok (rc == 0,
      out ++ (if err ≠ "" then "\n--- STDERR ---\n" ++ err else ""), rc)
  | ActionOutcome.timedOut => Except.error "TimeoutExpired"
  | ActionOutcome.raised msg => Except.error msg

/-! ## Execution Engine (`task_runner.py`) -/

/-- Models `_tier` in `task_runner.py`: `SUCCESS` only when both the action and the
verification succeeded. -/
def tier_of (exec_ok verify_ok : Bool) : String × List (String × String) :=
  if exec_ok && verify_ok then ("SUCCESS", [("ok", "true")])
  else ("FAIL", [("ok", "false"), ("exec_ok", toString exec_ok),
                 ("verify_ok", toString verify_ok)])

/-- Output-path resolution in `run_task_once`: absolute paths are used
as-is, relative ones resolve under the configured data directory. -/
def resolve_output_path (data_dir output_path : String) : String :=
  if (match output_path.data with
      | c :: _ => decide (c = '/')
      | [] => false) then output_path
  else data_dir ++ "/" ++ output_path

/-- What the inner `perform()` returns: the `ok`/`message` dict (`meta` kept
to the return code the messages quote). -/
structure PerformResult where
  ok : Bool
  message : String
  returncode : Option Int
deriving DecidableEq

/-- The inner `perform()` of `run_task_once`: dispatch on the tool.  `exec`
and `gh` run the configured command, `http_request` shells out to curl; both
write the captured text to the output path and report the return code.  An
unknown tool writes an explanatory text and reports failure without running
anything.  A raising subprocess call propagates before any write. -/
def perform (tool : String) (fs : FS) (outPath : String)
    (outcome : ActionOutcome) : Except String (PerformResult × FS) :=
  if tool = "exec" ∨ tool = "gh" then
    match run_subprocess_and_capture outcome with
    | Except.error e => Except.error e
    | Except.ok (ok, text, rc) =>
      Except.ok (⟨ok, "Exit code: " ++ toString rc, some rc⟩,
        write_output fs outPath text)
  else if tool = "http_request" then
    match run_subprocess_and_capture outcome with
    | Except.error e => Except.error e
    | Except.ok (ok, text, rc) =>
      Except.ok (⟨ok, "HTTP exit code: " ++ toString rc, some rc⟩,
        write_output fs outPath text)
  else
    Except.ok (⟨false, "Unknown tool: " ++ tool, none⟩,
      write_output fs outPath ("Unknown tool: " ++ tool))

/-- The inner `validate()` of `run_task_once`: run the configured verifier
against the output path and fold its verdict with the action verdict into a
tier, recording the verification message in the tier meta. -/
def validate (verify_name : String) (fs : FS) (outPath : String)
    (result_ok : Bool) : String × List (String × String) :=
  let vr := verifier verify_name fs outPath
  let tm := tier_of result_ok vr.1
  (tm.1, metaSet tm.2 "verify_msg" vr.2)

/-- Mutable state `run_task_once` touches: the store and the filesystem. -/
structure World where
  store : Store
  fs : FS
deriving DecidableEq

/-- One entry of the batch report.  The synthetic entries built in the
`run_due` exception handler carry no run_id / output_path / finished_at /
next_run_at; `none` models both an absent key and a JSON null. -/
structure ResultEntry where
  run_id : Option String
  task_id : String
  name : String
  status : String
  message : String
  output_path : Option String
  finished_at : Option Timestamp
  next_run_at : Option Timestamp
deriving DecidableEq

/-- The meta dict passed to `create_run`. -/
def startMeta (t : Task) : List (String × String) :=
  [("tool", t.tool), ("schedule", t.schedule), ("expected", t.expected)]

/-- Models `run_task_once`.  Explicit parameters stand for the ambient effects:
`run_id` for `new_run_id()`, `started_at`/`finished_at` for the two
`now_iso()` reads (the trailing `utc_now_iso()` inside `set_next_run` is
identified with `finished_at`), `outcome` for the subprocess boundary and
`sched` for `next_run_iso` at the current wall clock (`none` models
`next_run_iso` raising, which both callers turn into a null next_run_at).
The guard collaborator of `exec_with_guard_if_available` is absent in this
repository, so the engine falls back to calling `perform()` directly; the
memory collaborator and the log writer have no store or filesystem effect
here.  A raising action propagates out of the function after `create_run`,
leaving the run row in state `running`. -/
def run_task_once (data_dir : String) (w : World) (task : Task)
    (run_id : String) (started_at finished_at : Timestamp)
    (outcome : ActionOutcome) (sched : String → Option Timestamp) :
    World × Except String ResultEntry :=
  let outPath := resolve_output_path data_dir task.output_path
  let st1 := create_run w.store run_id task.id started_at outPath (startMeta task)
  match perform task.tool w.fs outPath outcome with
  | Except.error e => (⟨st1, w.fs⟩, Except.error e)
  | Except.ok (result, fs1) =>
    let tv := validate task.verify fs1 outPath result.ok
    let status := if strUpper tv.1 = "SUCCESS" then "success" else "fail"
    let message := strTrim (strUpper status ++ " | " ++ result.message)
    let st2 := finish_run st1 run_id status message finished_at tv.2
    let nxt := sched task.schedule
    let st3 := set_next_run st2 finished_at task.id nxt
    (⟨st3, fs1⟩,
      Except.ok ⟨some run_id, task.id, task.name, status, message,
        some outPath, some finished_at, nxt⟩)

/-- The synthetic result entry the `run_due` exception handler appends. -/
def synthetic_fail (t : Task) (msg : String) : ResultEntry :=
  ⟨none, t.id, t.name, "fail", msg, none, none, none⟩

/-- The body of the `for t in due` loop of `run_due` for one task: on an
exception from `run_task_once`, best-effort reschedule (`next_run_iso`
raising falls back to clearing next_run_at — with `sched` both arms are one
`set_next_run` call) and record a synthetic fail entry. -/
def run_due_step (data_dir : String) (w : World) (t : Task) (run_id : String)
    (started_at finished_at : Timestamp) (outcome : ActionOutcome)
    (sched : String → Option Timestamp) : World × ResultEntry :=
  match run_task_once data_dir w t run_id started_at finished_at outcome sched with
  | (w1, Except.ok e) => (w1, e)
  | (w1, Except.error msg) =>
    (⟨set_next_run w1.store finished_at t.id (sched t.schedule), w1.fs⟩,
      synthetic_fail t msg)

/-- The whole `for t in due` loop: sequential execution, one result entry
per due task.  `rid` assigns each task its fresh run id and `outcomes` the
behaviour of its action. -/
def run_due_exec (data_dir : String) (w : World) (due : List Task)
    (rid : String → String) (started_at finished_at : Timestamp)
    (outcomes : String → ActionOutcome) (sched : String → Option Timestamp) :
    World × List ResultEntry :=
  match due with
  | [] => (w, [])
  | t :: rest =>
    let se := run_due_step data_dir w t (rid t.id) started_at finished_at
      (outcomes t.id) sched
    let rec' := run_due_exec data_dir se.1 rest rid started_at finished_at
      outcomes sched
    (rec'.1, se.2 :: rec'.2)

/-- The due-batch selection of `run_due`: a named marker wins, else the
active-markers-only policy (gated by the TG_FAIL_FAST flag), else plain
`due_tasks`.  The fail-fast arm walks `list_markers(limit=200)`, keeps the
active markers whose status report is green, concatenates their per-marker
due lists and truncates to the limit. -/
def select_due (st : Store) (now : Timestamp) (limit : Nat)
    (marker_name : Option String) (active_markers_only fail_fast : Bool) :
    List Task :=
  match marker_name with
  | some mn => due_tasks_for_marker st mn now limit
  | none =>
    if active_markers_only then
      if fail_fast then
        (((list_markers st 200).filter fun m =>
            decide (m.status = "active") &&
            (match marker_status st m.name with
             | Except.ok rep => rep.green
             | Except.error _ => false)).flatMap
          fun m => due_tasks_for_marker st m.name now limit).take limit
      else due_tasks_active_markers_only st now limit
    else due_tasks st now limit

/-! ## Concrete data for witnesses and counterexamples -/

/-- A due task owned by marker `M1`. -/
def taskA : Task :=
  ⟨"A", "task a", "exec", "", "every:60", "", "file_exists", "a.txt",
    true, 0, 0, some 1⟩

/-- A due task owned by marker `M2`. -/
def taskB : Task :=
  ⟨"B", "task b", "exec", "", "every:60", "", "file_exists", "b.txt",
    true, 0, 0, some 2⟩

/-- Two active markers, `M1` not green (its member never ran), `M2` green;
each owns one due task. -/
def cexStore : Store :=
  { tasks := [taskA, taskB]
    runs := [⟨"r1", "B", "success", 1, some 1, "done", "b.txt", []⟩]
    markers := [⟨"m1", "M1", "active", 1, none⟩, ⟨"m2", "M2", "active", 0, none⟩]
    marker_tasks := [⟨"m1", "A", 0⟩, ⟨"m2", "B", 0⟩] }

/-- The scenario task `t2` of the spec: shell command producing no stdout,
verified with `file_exists`. -/
def t2task : Task :=
  ⟨"t2", "t2", "exec", "", "every:60", "", "file_exists", "t2.out",
    true, 0, 0, none⟩

/-- A world holding only `t2task`, with an empty filesystem. -/
def w0 : World := ⟨⟨[t2task], [], [], []⟩, []⟩

/-- The concrete status report of marker `M2` in `cexStore`. -/
def crepM2 : MarkerReport :=
  ⟨⟨"m2", "M2", "active", 0, none⟩, true,
    [⟨"B", "success", some (1, "done")⟩]⟩

/-- World for the batch-isolation witness: two stored tasks. -/
def w7 : World := ⟨⟨[t2task, taskB], [], [], []⟩, []⟩

/-- Action behaviour for the batch-isolation witness: `t2` raises, every
other task completes cleanly. -/
def outcomes7 : String → ActionOutcome := fun i =>
  if i = "t2" then ActionOutcome.raised "boom"
  else ActionOutcome.completed 0 "hi" ""

/-- Run-id supply for the batch-isolation witness. -/
def rid7 : String → String := fun i => i ++ "-r"

/-- A schedule oracle on which `next_run_iso` always raises. -/
def schedNone : String → Option Timestamp := fun _ => none

/-- A store holding one empty active marker `M`, for the phantom-member
witness. -/
def markerM : Marker := ⟨"m1", "M", "active", 0, none⟩

/-- See `markerM`. -/
def cstM : Store := ⟨[], [], [markerM], []⟩

/-! ## Helper lemmas -/

/-- Elements of a truncated insertion sort come from the original list. -/
theorem mem_of_mem_sortTake {α : Type} {r : α → α → Prop} [DecidableRel r]
    {l : List α} {n : Nat} {x : α}
    (hx : x ∈ (List.insertionSort r l).take n) : x ∈ l :=
  (List.perm_insertionSort r l).mem_iff.mp
    (List.Sublist.mem hx (List.take_sublist n _))

/-- An element of the original list is in the truncated insertion sort when
no truncation happens. -/
theorem mem_sortTake_of_length_le {α : Type} {r : α → α → Prop} [DecidableRel r]
    {l : List α} {n : Nat} {x : α} (hl : l.length ≤ n) (hx : x ∈ l) :
    x ∈ (List.insertionSort r l).take n := by
  rw [List.take_of_length_le (by simpa [List.length_insertionSort] using hl)]
  exact (List.perm_insertionSort r l).mem_iff.mpr hx

/-- What the `laterRun` scan returns: an input (or the seed), maximal in
`started_at` among the inputs and at least the seed. -/
theorem foldl_laterRun_spec (l : List RunRecord) :
    ∀ acc r, l.foldl laterRun acc = some r →
      (acc = some r ∨ r ∈ l) ∧ (∀ x ∈ l, x.started_at ≤ r.started_at) ∧
      (∀ b, acc = some b → b.started_at ≤ r.started_at) := by
  induction l with
  | nil =>
    intro acc r h
    exact ⟨Or.inl h, by simp, fun b hb => by simp_all⟩
  | cons x l ih =>
    intro acc r h
    simp only [List.foldl_cons] at h
    obtain ⟨h1, h2, h3⟩ := ih (laterRun acc x) r h
    have hstep : x.started_at ≤ r.started_at ∧
        (∀ b, acc = some b → b.started_at ≤ r.started_at) := by
      have hx : ∀ c, laterRun acc x = some c →
          x.started_at ≤ c.started_at ∧
          (∀ b, acc = some b → b.started_at ≤ c.started_at) := by
        intro c hc
        cases acc with
        | none =>
          simp only [laterRun] at hc
          cases hc
          exact ⟨le_refl _, fun b hb => by cases hb⟩
        | some b =>
          simp only [laterRun] at hc
          by_cases hlt : b.started_at < x.started_at
          · simp [hlt] at hc
            cases hc
            exact ⟨le_refl _, fun b' hb' => by cases hb'; exact le_of_lt hlt⟩
          · simp [hlt] at hc
            cases hc
            exact ⟨le_of_not_lt hlt, fun b' hb' => by cases hb'; exact le_refl _⟩
      cases hlr : laterRun acc x with
      | none =>
        exfalso
        cases acc with
        | none => simp [laterRun] at hlr
        | some b =>
          simp only [laterRun] at hlr
          split at hlr <;> cases hlr
      | some c =>
        obtain ⟨hxc, hbc⟩ := hx c hlr
        have hcr : c.started_at ≤ r.started_at := h3 c hlr
        exact ⟨le_trans hxc hcr, fun b hb => le_trans (hbc b hb) hcr⟩
    refine ⟨?_, ?_, hstep.2⟩
    · cases h1 with
      | inl hacc =>
        cases acc with
        | none =>
          simp only [laterRun] at hacc
          cases hacc
          exact Or.inr (List.mem_cons_self _ _)
        | some b =>
          simp only [laterRun] at hacc
          by_cases hlt : b.started_at < x.started_at
          · simp [hlt] at hacc
            cases hacc
            exact Or.inr (List.mem_cons_self _ _)
          · simp [hlt] at hacc
            exact Or.inl (congrArg some hacc)
      | inr hmem => exact Or.inr (List.mem_cons_of_mem _ hmem)
    · intro y hy
      rcases List.mem_cons.mp hy with hyx | hyl
      · cases hyx; exact hstep.1
      · exact h2 y hyl

/-- Scanning from an empty seed yields `none` exactly on the empty list. -/
theorem foldl_laterRun_none (l : List RunRecord) :
    ∀ acc, l.foldl laterRun acc = none ↔ (acc = none ∧ l = []) := by
  induction l with
  | nil => intro acc; simp
  | cons x l ih =>
    intro acc
    simp only [List.foldl_cons, ih (laterRun acc x)]
    constructor
    · rintro ⟨h1, h2⟩
      cases acc with
      | none => simp [laterRun] at h1
      | some b =>
        simp only [laterRun] at h1
        split at h1 <;> simp_all
    · rintro ⟨h1, h2⟩
      cases h2

/-- Specification of `latest_qualifying_run`: when some run comes back it is
a stored qualifying run maximal in `started_at` among qualifying runs; when
none does, no stored run qualifies. -/
theorem latest_qualifying_run_spec (runs : List RunRecord) (tid : String)
    (watermark : Timestamp) :
    (∀ r, latest_qualifying_run runs tid watermark = some r →
      r ∈ runs ∧ r.task_id = tid ∧ watermark ≤ r.started_at ∧
      ∀ x ∈ runs, x.task_id = tid → watermark ≤ x.started_at →
        x.started_at ≤ r.started_at) ∧
    (latest_qualifying_run runs tid watermark = none ↔
      ∀ x ∈ runs, ¬(x.task_id = tid ∧ watermark ≤ x.started_at)) := by
  constructor
  · intro r hr
    obtain ⟨h1, h2, _⟩ :=
      foldl_laterRun_spec (runs.filter (qualifies watermark tid)) none r hr
    have hrmem : r ∈ runs.filter (qualifies watermark tid) := by
      rcases h1 with h | h
      · cases h
      · exact h
    obtain ⟨hrin, hrq⟩ := List.mem_filter.mp hrmem
    simp only [qualifies, Bool.and_eq_true, decide_eq_true_eq] at hrq
    refine ⟨hrin, hrq.1, hrq.2, ?_⟩
    intro x hx hxt hxw
    exact h2 x (List.mem_filter.mpr ⟨hx, by
      simp only [qualifies, Bool.and_eq_true, decide_eq_true_eq]
      exact ⟨hxt, hxw⟩⟩)
  · rw [latest_qualifying_run,
      foldl_laterRun_none (runs.filter (qualifies watermark tid)) none]
    simp only [true_and, List.filter_eq_nil_iff]
    constructor
    · intro h x hx hq
      exact h x hx (by
        simp only [qualifies, Bool.and_eq_true, decide_eq_true_eq]; exact hq)
    · intro h x hx hq
      simp only [qualifies, Bool.and_eq_true, decide_eq_true_eq] at hq
      exact h x hx hq

/-- Lemma: `member_ok` holds exactly when the latest qualifying run exists and
succeeded. -/
theorem member_ok_iff (runs : List RunRecord) (watermark : Timestamp)
    (tid : String) :
    member_ok runs watermark tid = true ↔
      ∃ r, latest_qualifying_run runs tid watermark = some r ∧
        r.status = "success" := by
  unfold member_ok
  cases h : latest_qualifying_run runs tid watermark with
  | none => simp [h]
  | some r => simp [h]

/-! ## Claim theorems -/

/-- C3.  Marker health: a report computed by `marker_status` is green
exactly when the member list is non-empty and every member has a latest
qualifying run (started at or after the creation of the marker) with status
`success`; the companion conjuncts pin down `latest_qualifying_run` as the
most recent stored qualifying run.  In particular a marker with no members
is never green. -/
theorem marker_green_iff (st : Store) (mname : String) (rep : MarkerReport)
    (h : marker_status st mname = Except.ok rep) :
    (rep.green = true ↔
      (marker_member_ids st rep.marker ≠ [] ∧
        ∀ tid ∈ marker_member_ids st rep.marker, ∃ r,
          latest_qualifying_run st.runs tid rep.marker.created_at = some r ∧
          r.status = "success")) ∧
    (∀ tid r, latest_qualifying_run st.runs tid rep.marker.created_at = some r →
      r ∈ st.runs ∧ r.task_id = tid ∧ rep.marker.created_at ≤ r.started_at ∧
      ∀ x ∈ st.runs, x.task_id = tid → rep.marker.created_at ≤ x.started_at →
        x.started_at ≤ r.started_at) ∧
    (∀ tid, latest_qualifying_run st.runs tid rep.marker.created_at = none →
      ∀ x ∈ st.runs, ¬(x.task_id = tid ∧ rep.marker.created_at ≤ x.started_at)) := by
  unfold marker_status at h
  cases hm : get_marker st mname with
  | none => rw [hm] at h; cases h
  | some m =>
    rw [hm] at h
    cases h
    refine ⟨?_, fun tid r hr =>
        (latest_qualifying_run_spec st.runs tid m.created_at).1 r hr,
      fun tid hn =>
        (latest_qualifying_run_spec st.runs tid m.created_at).2.mp hn⟩
    cases hempty : (marker_member_ids st m).isEmpty with
    | true =>
      simp only [hempty, if_true]
      rw [List.isEmpty_iff] at hempty
      simp [hempty]
    | false =>
      have hne : marker_member_ids st m ≠ [] := by
        intro hnil
        rw [hnil] at hempty
        simp at hempty
      simp only [hempty, Bool.false_eq_true, if_false, hne, ne_eq,
        not_false_iff, true_and]
      rw [List.all_eq_true]
      constructor
      · intro hall tid htid
        exact (member_ok_iff st.runs m.created_at tid).mp (hall tid htid)
      · intro hall tid htid
        exact (member_ok_iff st.runs m.created_at tid).mpr (hall tid htid)

/-- Witness for C3 on `cexStore`: instantiating `marker_green_iff` at marker
`M2`, whose one member ran successfully after the marker was created. -/
theorem marker_green_iff_witness :
    crepM2.green = true ↔
      (marker_member_ids cexStore crepM2.marker ≠ [] ∧
        ∀ tid ∈ marker_member_ids cexStore crepM2.marker, ∃ r,
          latest_qualifying_run cexStore.runs tid crepM2.marker.created_at = some r ∧
          r.status = "success") :=
  (marker_green_iff cexStore "M2" crepM2 rfl).1

/-- C9.  `exit_code_0` and `file_exists` return the same success boolean:
the file exists with nonzero size. -/
theorem verify_policies_agree (fs : FS) (p : String) :
    (verifier "exit_code_0" fs p).1 = (verifier "file_exists" fs p).1 ∧
    ((verifier "exit_code_0" fs p).1 = true ↔
      fileExists fs p = true ∧ 0 < fileSize fs p) := by
  have h1 : verifier "exit_code_0" = verify_exit_code_0 := rfl
  have h2 : verifier "file_exists" = verify_file_exists := rfl
  rw [h1, h2]
  unfold verify_exit_code_0 verify_file_exists
  simp [Bool.and_eq_true, decide_eq_true_eq]

/-- C5 counterexample.  Closing a marker whose name does not exist raises
nothing: the unconditional UPDATE matches no row and returns normally, so
`close_marker` does not fail with `MarkerNotFound` as claimed. -/
theorem close_marker_missing_no_error :
    get_marker ⟨[], [], [], []⟩ "ghost" = none ∧
    close_marker ⟨[], [], [], []⟩ 9 "ghost" = Except.ok ⟨[], [], [], []⟩ := by
  constructor
  · rfl
  · rfl

/-- C5 as amended.  On an unknown marker name, `add_task_to_marker` fails
with `MarkerNotFound`, while `close_marker` succeeds and leaves the store
unchanged. -/
theorem marker_lookup_failures (st : Store) (now : Timestamp)
    (mname tid : String) (h : get_marker st mname = none) :
    add_task_to_marker st now mname tid =
      Except.error (StoreError.markerNotFound mname) ∧
    close_marker st now mname = Except.ok st := by
  constructor
  · unfold add_task_to_marker
    rw [h]
  · unfold close_marker
    have hall : ∀ m ∈ st.markers, ¬(m.name = mname) := by
      intro m hm
      have := List.find?_eq_none.mp h m hm
      simpa using this
    have hmap : (st.markers.map fun m =>
        if m.name = mname then { m with status := "closed", closed_at := some now }
        else m) = st.markers := by
      have : (st.markers.map fun m =>
          if m.name = mname then { m with status := "closed", closed_at := some now }
          else m) = st.markers.map id := by
        apply List.map_congr_left
        intro m hm
        simp [hall m hm]
      simpa using this
    rw [hmap]

/-- Witness for the amended C5 theorem at the empty store. -/
theorem marker_lookup_failures_witness :
    add_task_to_marker ⟨[], [], [], []⟩ 3 "nope" "tid" =
      Except.error (StoreError.markerNotFound "nope") ∧
    close_marker ⟨[], [], [], []⟩ 3 "nope" = Except.ok ⟨[], [], [], []⟩ :=
  marker_lookup_failures ⟨[], [], [], []⟩ 3 "nope" "tid" (by decide)

/-- C1 at its failing input.  When the timeout of the action elapses,
`subprocess.run` raises `TimeoutExpired`; the exception propagates out of
`run_task_once` and the run row created at action start is left in status
`running` with `finished_at` null — no terminal write ever happens for that
run_id, contradicting the claimed invariant. -/
theorem timeout_run_never_finalized :
    (run_task_once "/data" w0 t2task "r9" 1 2 ActionOutcome.timedOut
      (fun _ => some 62)).2 = Except.error "TimeoutExpired" ∧
    (run_task_once "/data" w0 t2task "r9" 1 2 ActionOutcome.timedOut
      (fun _ => some 62)).1.store.runs =
      [⟨"r9", "t2", "running", 1, none, "", "/data/t2.out", startMeta t2task⟩] :=
  ⟨rfl, rfl⟩

/-- C6.  `due_tasks(now, limit)` returns only stored tasks that are enabled
and due (next_run_at null or at most now), sorted ascending by
`coalesce(next_run_at, created_at)`, with at most `limit` entries. -/
theorem due_tasks_spec (st : Store) (now : Timestamp) (limit : Nat) :
    (∀ t ∈ due_tasks st now limit, t ∈ st.tasks ∧ t.enabled = true ∧
      (t.next_run_at = none ∨ ∃ s, t.next_run_at = some s ∧ s ≤ now)) ∧
    List.Sorted (fun a b => dueKey a ≤ dueKey b) (due_tasks st now limit) ∧
    (due_tasks st now limit).length ≤ limit := by
  refine ⟨?_, ?_, ?_⟩
  · intro t ht
    have hmem : t ∈ st.tasks.filter (isDue now) := mem_of_mem_sortTake ht
    obtain ⟨hin, hdue⟩ := List.mem_filter.mp hmem
    simp only [isDue, Bool.and_eq_true] at hdue
    refine ⟨hin, hdue.1, ?_⟩
    cases hnra : t.next_run_at with
    | none => exact Or.inl rfl
    | some s =>
      refine Or.inr ⟨s, rfl, ?_⟩
      have := hdue.2
      rw [hnra] at this
      simpa using this
  · haveI : IsTrans Task (fun a b => dueKey a ≤ dueKey b) :=
      ⟨fun _ _ _ hab hbc => le_trans hab hbc⟩
    haveI : IsTotal Task (fun a b => dueKey a ≤ dueKey b) :=
      ⟨fun _ _ => le_total _ _⟩
    exact List.Pairwise.sublist (List.take_sublist _ _)
      (List.sorted_insertionSort _ _)
  · simp only [due_tasks]
    exact List.length_take_le limit _

/-- Witness for C6 on `cexStore` at `now = 5`, `limit = 1`: the selected
task is stored, enabled and due, and the batch respects the limit. -/
theorem due_tasks_spec_witness :
    (taskA ∈ cexStore.tasks ∧ taskA.enabled = true ∧
      (taskA.next_run_at = none ∨ ∃ s, taskA.next_run_at = some s ∧ s ≤ 5)) ∧
    (due_tasks cexStore 5 1).length ≤ 1 :=
  ⟨(due_tasks_spec cexStore 5 1).1 taskA (by decide),
    (due_tasks_spec cexStore 5 1).2.2⟩

/-- C2 counterexample.  With `limit = 1` on `cexStore`, the normal
active-markers-only selection is truncated to the earlier-keyed task `A`
(owned by the non-green marker `M1`), while the fail-fast selection returns
task `B` from the green marker `M2` — so fail-fast is not a subset of the
normal selection. -/
theorem fail_fast_not_subset_cex :
    select_due cexStore 5 1 none true true = [taskB] ∧
    select_due cexStore 5 1 none true false = [taskA] ∧
    ¬(select_due cexStore 5 1 none true true ⊆
        select_due cexStore 5 1 none true false) := by
  refine ⟨by decide, by decide, ?_⟩
  intro hsub
  have : taskB ∈ select_due cexStore 5 1 none true false :=
    hsub (by decide)
  revert this
  decide

/-- C2 as amended.  The fail-fast active-markers selection is a subset of
the normal active-markers-only selection whenever the normal query is not
truncated, i.e. when the number of due tasks under active markers is at
most the limit; the shared `LIMIT` can otherwise cut tasks from the normal
result that fail-fast still selects. -/
theorem fail_fast_subset_of_untruncated (st : Store) (now : Timestamp)
    (limit : Nat)
    (h : (st.tasks.filter fun t =>
        isUnderActiveMarker st t && isDue now t).length ≤ limit) :
    select_due st now limit none true true ⊆
      select_due st now limit none true false := by
  have e1 : select_due st now limit none true true =
      (((list_markers st 200).filter fun m =>
          decide (m.status = "active") &&
          (match marker_status st m.name with
           | Except.ok rep => rep.green
           | Except.error _ => false)).flatMap
        fun m => due_tasks_for_marker st m.name now limit).take limit := rfl
  have e2 : select_due st now limit none true false =
      due_tasks_active_markers_only st now limit := rfl
  rw [e1, e2]
  intro x hx
  have hx2 : x ∈ ((list_markers st 200).filter fun m =>
      decide (m.status = "active") &&
      (match marker_status st m.name with
       | Except.ok rep => rep.green
       | Except.error _ => false)).flatMap
      (fun m => due_tasks_for_marker st m.name now limit) :=
    List.Sublist.mem hx (List.take_sublist _ _)
  obtain ⟨m, _, hxm⟩ := List.mem_flatMap.mp hx2
  unfold due_tasks_for_marker at hxm
  split at hxm
  next => cases hxm
  next m' hg =>
    split at hxm
    next => cases hxm
    next hact =>
      push_neg at hact
      have hxf : x ∈ st.tasks.filter fun t =>
          memberOfMarker st m' t && isDue now t :=
        mem_of_mem_sortTake hxm
      obtain ⟨hxin, hxc⟩ := List.mem_filter.mp hxf
      rw [Bool.and_eq_true] at hxc
      have hm'mem : m' ∈ st.markers := List.mem_of_find?_eq_some hg
      have hunder : isUnderActiveMarker st x = true := by
        obtain ⟨mt, hmt, hmtc⟩ := List.any_eq_true.mp hxc.1
        rw [Bool.and_eq_true, decide_eq_true_eq, decide_eq_true_eq] at hmtc
        unfold isUnderActiveMarker
        rw [List.any_eq_true]
        refine ⟨mt, hmt, ?_⟩
        rw [Bool.and_eq_true, decide_eq_true_eq, List.any_eq_true]
        exact ⟨hmtc.2, m', hm'mem, by
          rw [Bool.and_eq_true, decide_eq_true_eq, decide_eq_true_eq]
          exact ⟨hmtc.1.symm, hact⟩⟩
      unfold due_tasks_active_markers_only orderByDueKey
      exact mem_sortTake_of_length_le h
        (List.mem_filter.mpr ⟨hxin, by rw [Bool.and_eq_true]; exact ⟨hunder, hxc.2⟩⟩)

/-- Witness for the amended C2 theorem on `cexStore` with an unconstraining
limit. -/
theorem fail_fast_subset_witness :
    (cexStore.tasks.filter fun t =>
        isUnderActiveMarker cexStore t && isDue 5 t).length ≤ 10 ∧
    select_due cexStore 5 10 none true true ⊆
      select_due cexStore 5 10 none true false :=
  ⟨by decide, fail_fast_subset_of_untruncated cexStore 5 10 (by decide)⟩

/-- After an upsert, every stored row carrying the upserted id holds exactly
the supplied field values (with `updated_at = now`). -/
theorem upsert_task_mem_fields (st : Store) (now : Timestamp)
    (task_id nm tool pj sch exp vrfy op : String) (en : Bool)
    (nra : Option Timestamp) :
    ∀ t ∈ (upsert_task st now task_id nm tool pj sch exp vrfy op en nra).tasks,
      t.id = task_id → t.name = nm ∧ t.tool = tool ∧ t.params_json = pj ∧
        t.schedule = sch ∧ t.expected = exp ∧ t.verify = vrfy ∧
        t.output_path = op ∧ t.enabled = en ∧ t.updated_at = now ∧
        t.next_run_at = nra := by
  intro t ht hid
  unfold upsert_task at ht
  by_cases hany : st.tasks.any (fun t => decide (t.id = task_id)) = true
  · rw [if_pos hany] at ht
    obtain ⟨s, _, hs⟩ := List.mem_map.mp ht
    by_cases hsid : s.id = task_id
    · rw [if_pos hsid] at hs
      cases hs
      simp
    · rw [if_neg hsid] at hs
      cases hs
      exact absurd hid hsid
  · rw [if_neg hany] at ht
    rcases List.mem_append.mp ht with hin | hnew
    · exfalso
      apply hany
      rw [List.any_eq_true]
      exact ⟨t, hin, by simpa using hid⟩
    · rcases List.mem_singleton.mp hnew with rfl
      simp

/-- After an upsert, some stored row carries the upserted id. -/
theorem upsert_task_contains (st : Store) (now : Timestamp)
    (task_id nm tool pj sch exp vrfy op : String) (en : Bool)
    (nra : Option Timestamp) :
    (upsert_task st now task_id nm tool pj sch exp vrfy op en nra).tasks.any
      (fun t => decide (t.id = task_id)) = true := by
  unfold upsert_task
  by_cases hany : st.tasks.any (fun t => decide (t.id = task_id)) = true
  · rw [if_pos hany]
    obtain ⟨s, hsmem, hs⟩ := List.any_eq_true.mp hany
    rw [decide_eq_true_eq] at hs
    rw [List.any_eq_true]
    refine ⟨_, List.mem_map_of_mem _ hsmem, ?_⟩
    simp [hs]
  · rw [if_neg hany, List.any_eq_true]
    exact ⟨_, List.mem_append_right _ (List.mem_singleton_self _), by simp⟩

/-- Upsert never disturbs `created_at` (or drops a row): every pre-existing
row survives with its id and creation time. -/
theorem upsert_task_preserves (st : Store) (now : Timestamp)
    (task_id nm tool pj sch exp vrfy op : String) (en : Bool)
    (nra : Option Timestamp) :
    ∀ t ∈ st.tasks, ∃ t',
      t' ∈ (upsert_task st now task_id nm tool pj sch exp vrfy op en nra).tasks ∧
      t'.id = t.id ∧ t'.created_at = t.created_at := by
  intro t ht
  unfold upsert_task
  by_cases hany : st.tasks.any (fun t => decide (t.id = task_id)) = true
  · rw [if_pos hany]
    refine ⟨_, List.mem_map_of_mem _ ht, ?_, ?_⟩
    · by_cases hid : t.id = task_id
      · simp [hid]
      · simp [hid]
    · by_cases hid : t.id = task_id
      · simp [hid]
      · simp [hid]
  · rw [if_neg hany]
    exact ⟨t, List.mem_append_left _ ht, rfl, rfl⟩

/-- C8.  Upserting the same field values twice: the second call rewrites
only `updated_at` on the row of that id and leaves every other row untouched;
and across any upsert every pre-existing row keeps its id and
`created_at`. -/
theorem upsert_idempotent (st : Store) (now1 now2 : Timestamp)
    (task_id nm tool pj sch exp vrfy op : String) (en : Bool)
    (nra : Option Timestamp) :
    (upsert_task (upsert_task st now1 task_id nm tool pj sch exp vrfy op en nra)
        now2 task_id nm tool pj sch exp vrfy op en nra).tasks =
      (upsert_task st now1 task_id nm tool pj sch exp vrfy op en nra).tasks.map
        (fun t => if t.id = task_id then { t with updated_at := now2 } else t) ∧
    (∀ t ∈ st.tasks, ∃ t',
      t' ∈ (upsert_task st now1 task_id nm tool pj sch exp vrfy op en nra).tasks ∧
      t'.id = t.id ∧ t'.created_at = t.created_at) := by
  refine ⟨?_, upsert_task_preserves st now1 task_id nm tool pj sch exp vrfy op en nra⟩
  have hfields := upsert_task_mem_fields st now1 task_id nm tool pj sch exp vrfy op en nra
  have hb := upsert_task_contains st now1 task_id nm tool pj sch exp vrfy op en nra
  conv_lhs => rw [upsert_task]
  rw [if_pos hb]
  apply List.map_congr_left
  intro t ht
  by_cases hid : t.id = task_id
  · rw [if_pos hid, if_pos hid]
    obtain ⟨h1, h2, h3, h4, h5, h6, h7, h8, h9, h10⟩ := hfields t ht hid
    obtain ⟨i, n, tl, p, s, e, v, o, en', c, u, x⟩ := t
    simp only at h1 h2 h3 h4 h5 h6 h7 h8 h9 h10
    simp [h1, h2, h3, h4, h5, h6, h7, h8, h9, h10]
  · rw [if_neg hid, if_neg hid]

/-- Witness for C8 at a one-task store. -/
theorem upsert_idempotent_witness :
    (upsert_task (upsert_task ⟨[taskA], [], [], []⟩ 4 "A" "n" "exec" "" "every:5"
        "" "file_exists" "o" true (some 9)) 7 "A" "n" "exec" "" "every:5"
        "" "file_exists" "o" true (some 9)).tasks =
      (upsert_task ⟨[taskA], [], [], []⟩ 4 "A" "n" "exec" "" "every:5"
        "" "file_exists" "o" true (some 9)).tasks.map
        (fun t => if t.id = "A" then { t with updated_at := 7 } else t) ∧
    (∃ t', t' ∈ (upsert_task ⟨[taskA], [], [], []⟩ 4 "A" "n" "exec" "" "every:5"
        "" "file_exists" "o" true (some 9)).tasks ∧
      t'.id = taskA.id ∧ t'.created_at = taskA.created_at) :=
  ⟨(upsert_idempotent ⟨[taskA], [], [], []⟩ 4 7 "A" "n" "exec" "" "every:5"
      "" "file_exists" "o" true (some 9)).1,
    (upsert_idempotent ⟨[taskA], [], [], []⟩ 4 7 "A" "n" "exec" "" "every:5"
      "" "file_exists" "o" true (some 9)).2 taskA (by decide)⟩

/-- Reading back a freshly written file yields the written text. -/
theorem fsRead_write_output (fs : FS) (p t : String) :
    fsRead (write_output fs p t) p = some t := by
  unfold fsRead write_output
  rw [List.find?_cons_of_pos _ (by simp)]
  rfl

/-- The status string computed from a tier is governed by the two boolean
verdicts. -/
theorem tier_status (b v : Bool) :
    (if strUpper (tier_of b v).1 = "SUCCESS" then "success" else "fail") =
      if (b && v) = true then "success" else "fail" := by
  cases b <;> cases v <;> decide

/-- Evaluation of `perform` on a completed subprocess for the shell-backed tools. -/
theorem perform_exec_or_gh (tool : String) (htool : tool = "exec" ∨ tool = "gh")
    (fs : FS) (outPath : String) (rc : Int) (out err : String) :
    perform tool fs outPath (ActionOutcome.completed rc out err) =
      Except.ok (⟨rc == 0, "Exit code: " ++ toString rc, some rc⟩,
        write_output fs outPath
          (out ++ (if err ≠ "" then "\n--- STDERR ---\n" ++ err else ""))) := by
  rcases htool with rfl | rfl
  · rfl
  · rfl

/-- Evaluation of `perform` on a completed curl call for `http_request`. -/
theorem perform_http (fs : FS) (outPath : String) (rc : Int) (out err : String) :
    perform "http_request" fs outPath (ActionOutcome.completed rc out err) =
      Except.ok (⟨rc == 0, "HTTP exit code: " ++ toString rc, some rc⟩,
        write_output fs outPath
          (out ++ (if err ≠ "" then "\n--- STDERR ---\n" ++ err else ""))) := rfl

/-- A raising subprocess call propagates out of `perform` for every
implemented tool. -/
theorem perform_raises (tool : String)
    (htool : tool = "exec" ∨ tool = "gh" ∨ tool = "http_request")
    (fs : FS) (outPath : String) (o : ActionOutcome)
    (ho : action_raises o = true) :
    perform tool fs outPath o = Except.error (raise_message o) := by
  cases o with
  | completed rc out err => simp [action_raises] at ho
  | timedOut => rcases htool with rfl | rfl | rfl <;> rfl
  | raised msg => rcases htool with rfl | rfl | rfl <;> rfl

/-- If the action would raise yet `perform` still returns (the unknown-tool
branch, which never starts the subprocess), the reported action verdict is
failure. -/
theorem perform_ok_of_raises (tool : String) (fs : FS) (outPath : String)
    (o : ActionOutcome) (pr : PerformResult) (fs1 : FS)
    (ho : action_raises o = true)
    (hp : perform tool fs outPath o = Except.ok (pr, fs1)) : pr.ok = false := by
  have hs : run_subprocess_and_capture o = Except.error (raise_message o) := by
    cases o with
    | completed rc out err => simp [action_raises] at ho
    | timedOut => rfl
    | raised msg => rfl
  unfold perform at hp
  split_ifs at hp
  · simp [hs] at hp
  · simp [hs] at hp
  · injection hp with h1
    exact (congrArg (fun x : PerformResult × FS => x.1.ok) h1).symm

/-- Shape of a successfully returned `run_task_once`: it went through the
`perform` / `validate` / `finish_run` pipeline, and the result entry carries
the run id, task identity, the tier-derived status and the rescheduled
time. -/
theorem run_task_once_ok_shape (data_dir : String) (w : World) (task : Task)
    (run_id : String) (sa fi : Timestamp) (o : ActionOutcome)
    (sched : String → Option Timestamp) (w' : World) (e : ResultEntry)
    (h : run_task_once data_dir w task run_id sa fi o sched = (w', Except.ok e)) :
    ∃ pr, perform task.tool w.fs (resolve_output_path data_dir task.output_path) o
        = Except.ok (pr, w'.fs) ∧
      e.run_id = some run_id ∧ e.task_id = task.id ∧ e.name = task.name ∧
      e.status = (if pr.ok &&
          (verifier task.verify w'.fs
            (resolve_output_path data_dir task.output_path)).1
        then "success" else "fail") ∧
      e.next_run_at = sched task.schedule := by
  simp only [run_task_once] at h
  split at h
  next err heq => simp [Prod.ext_iff] at h
  next pr fs1 heq =>
    obtain ⟨hw, he⟩ := Prod.mk.injEq _ _ _ _ |>.mp h
    injection he with he
    subst he
    subst hw
    refine ⟨pr, heq, rfl, rfl, rfl, ?_, rfl⟩
    simp only [validate]
    exact tier_status pr.ok _

/-- For a completed action and an implemented tool, `run_task_once` returns
normally. -/
theorem run_task_once_completed_ok (data_dir : String) (w : World) (task : Task)
    (run_id : String) (sa fi : Timestamp) (rc : Int) (out err : String)
    (sched : String → Option Timestamp)
    (htool : task.tool = "exec" ∨ task.tool = "gh" ∨ task.tool = "http_request") :
    ∃ w' e, run_task_once data_dir w task run_id sa fi
      (ActionOutcome.completed rc out err) sched = (w', Except.ok e) := by
  have hp : ∃ pr fs1, perform task.tool w.fs
      (resolve_output_path data_dir task.output_path)
      (ActionOutcome.completed rc out err) = Except.ok (pr, fs1) := by
    rcases htool with h | h | h
    · exact ⟨_, _, perform_exec_or_gh task.tool (Or.inl h) _ _ _ _ _⟩
    · exact ⟨_, _, perform_exec_or_gh task.tool (Or.inr h) _ _ _ _ _⟩
    · rw [h]
      exact ⟨_, _, perform_http _ _ _ _ _⟩
  obtain ⟨pr, fs1, hp⟩ := hp
  rcases hr : run_task_once data_dir w task run_id sa fi
      (ActionOutcome.completed rc out err) sched with ⟨wr, res⟩
  cases res with
  | ok e => exact ⟨wr, e, rfl⟩
  | error msg =>
    exfalso
    simp only [run_task_once, hp] at hr
    simp [Prod.ext_iff] at hr

/-- C4.  For the implemented tools, the recorded terminal status is
`success` exactly when the action exited zero and the verification of the
output artifact succeeded; and the `t2` scenario of the spec: a zero-exit command
leaving an empty output artifact is finalized as `fail` from any starting
world. -/
theorem run_status_success_iff (data_dir : String) (w : World) (task : Task)
    (run_id : String) (sa fi : Timestamp) (rc : Int) (out err : String)
    (sched : String → Option Timestamp)
    (htool : task.tool = "exec" ∨ task.tool = "gh" ∨ task.tool = "http_request") :
    (∃ w' e, run_task_once data_dir w task run_id sa fi
        (ActionOutcome.completed rc out err) sched = (w', Except.ok e) ∧
      (e.status = "success" ↔ (rc = 0 ∧
        (verifier task.verify w'.fs
          (resolve_output_path data_dir task.output_path)).1 = true))) ∧
    (∀ w2 rid2 sa2 fi2 sched2, ∃ w2' e2,
      run_task_once data_dir w2 t2task rid2 sa2 fi2
        (ActionOutcome.completed 0 "" "") sched2 = (w2', Except.ok e2) ∧
      e2.status = "fail") := by
  constructor
  · obtain ⟨w', e, hrun⟩ := run_task_once_completed_ok data_dir w task run_id
      sa fi rc out err sched htool
    obtain ⟨pr, hperf, _, _, _, hstat, _⟩ := run_task_once_ok_shape data_dir w
      task run_id sa fi _ sched w' e hrun
    refine ⟨w', e, hrun, ?_⟩
    have hok : pr.ok = (rc == 0) := by
      rcases htool with h | h | h
      · rw [perform_exec_or_gh task.tool (Or.inl h) w.fs _ rc out err] at hperf
        injection hperf with h1
        exact (congrArg (fun x : PerformResult × FS => x.1.ok) h1).symm
      · rw [perform_exec_or_gh task.tool (Or.inr h) w.fs _ rc out err] at hperf
        injection hperf with h1
        exact (congrArg (fun x : PerformResult × FS => x.1.ok) h1).symm
      · rw [h, perform_http w.fs _ rc out err] at hperf
        injection hperf with h1
        exact (congrArg (fun x : PerformResult × FS => x.1.ok) h1).symm
    rw [hstat, hok]
    cases hrc : (rc == 0) with
    | false =>
      have hrc' : ¬ rc = 0 := by simpa using hrc
      cases hvb : (verifier task.verify w'.fs
          (resolve_output_path data_dir task.output_path)).1 with
      | false => exact iff_of_false (by decide) (fun hx => hrc' hx.1)
      | true => exact iff_of_false (by decide) (fun hx => hrc' hx.1)
    | true =>
      have hrc' : rc = 0 := by simpa using hrc
      cases hvb : (verifier task.verify w'.fs
          (resolve_output_path data_dir task.output_path)).1 with
      | false =>
        exact iff_of_false (by decide) (fun hx => by simp [hvb] at hx)
      | true => exact iff_of_true rfl ⟨hrc', rfl⟩
  · intro w2 rid2 sa2 fi2 sched2
    obtain ⟨w2', e2, hrun⟩ := run_task_once_completed_ok data_dir w2 t2task
      rid2 sa2 fi2 0 "" "" sched2 (Or.inl rfl)
    obtain ⟨pr, hperf, _, _, _, hstat, _⟩ := run_task_once_ok_shape data_dir w2
      t2task rid2 sa2 fi2 _ sched2 w2' e2 hrun
    refine ⟨w2', e2, hrun, ?_⟩
    rw [perform_exec_or_gh t2task.tool (Or.inl rfl) w2.fs _ 0 "" ""] at hperf
    injection hperf with h1
    have hfs : w2'.fs = write_output w2.fs
        (resolve_output_path data_dir t2task.output_path) "" :=
      (congrArg (fun x : PerformResult × FS => x.2) h1).symm
    have hok : pr.ok = true :=
      (congrArg (fun x : PerformResult × FS => x.1.ok) h1).symm
    have hv : (verifier t2task.verify w2'.fs
        (resolve_output_path data_dir t2task.output_path)).1 = false := by
      rw [hfs]
      show (verify_file_exists (write_output w2.fs
        (resolve_output_path data_dir t2task.output_path) "")
        (resolve_output_path data_dir t2task.output_path)).1 = false
      unfold verify_file_exists fileExists fileSize
      rw [fsRead_write_output]
      simp
      decide
    rw [hstat, hok, hv]
    rfl

/-- Witness for C4 at the `t2` world: zero exit status, empty artifact,
verified result `fail`; and the main equivalence instantiated there. -/
theorem run_status_success_iff_witness :
    (∃ w' e, run_task_once "/data" w0 t2task "r9" 1 2
        (ActionOutcome.completed 0 "" "") (fun _ => some 62) = (w', Except.ok e) ∧
      (e.status = "success" ↔ ((0 : Int) = 0 ∧
        (verifier t2task.verify w'.fs
          (resolve_output_path "/data" t2task.output_path)).1 = true))) ∧
    (∃ w2' e2, run_task_once "/data" w0 t2task "r8" 1 2
        (ActionOutcome.completed 0 "" "") (fun _ => some 62) = (w2', Except.ok e2) ∧
      e2.status = "fail") := by
  have h := run_status_success_iff "/data" w0 t2task "r9" 1 2 0 "" ""
    (fun _ => some 62) (Or.inl rfl)
  exact ⟨h.1, h.2 w0 "r8" 1 2 (fun _ => some 62)⟩

/-- A raising action makes the loop body record the run start, reschedule
the task through the same schedule computation (falling back to a null
next_run_at when it raises) and yield the synthetic fail entry, leaving the
filesystem untouched. -/
theorem run_due_step_raises (data_dir : String) (w : World) (t : Task)
    (rid' : String) (sa fi : Timestamp) (o : ActionOutcome)
    (sched : String → Option Timestamp)
    (ho : action_raises o = true)
    (htool : t.tool = "exec" ∨ t.tool = "gh" ∨ t.tool = "http_request") :
    run_due_step data_dir w t rid' sa fi o sched =
      (⟨set_next_run (create_run w.store rid' t.id sa
          (resolve_output_path data_dir t.output_path) (startMeta t)) fi t.id
          (sched t.schedule), w.fs⟩,
        synthetic_fail t (raise_message o)) := by
  unfold run_due_step
  simp only [run_task_once,
    perform_raises t.tool htool w.fs (resolve_output_path data_dir t.output_path) o ho]

/-- Identity and failure bookkeeping of one loop iteration: the produced
entry always names the processed task, and a raising action always yields
status `fail` (through the synthetic entry, or through a failed tier when
the unknown-tool branch returns without running the subprocess). -/
theorem run_due_step_fields (data_dir : String) (w : World) (t : Task)
    (rid' : String) (sa fi : Timestamp) (o : ActionOutcome)
    (sched : String → Option Timestamp) :
    (run_due_step data_dir w t rid' sa fi o sched).2.task_id = t.id ∧
    (run_due_step data_dir w t rid' sa fi o sched).2.name = t.name ∧
    (action_raises o = true →
      (run_due_step data_dir w t rid' sa fi o sched).2.status = "fail") := by
  unfold run_due_step
  rcases hr : run_task_once data_dir w t rid' sa fi o sched with ⟨w1, res⟩
  cases res with
  | error msg => exact ⟨rfl, rfl, fun _ => rfl⟩
  | ok e =>
    obtain ⟨pr, hperf, _, htid, hnm, hstat, _⟩ :=
      run_task_once_ok_shape data_dir w t rid' sa fi o sched w1 e hr
    refine ⟨htid, hnm, ?_⟩
    intro ho
    have hok : pr.ok = false :=
      perform_ok_of_raises t.tool w.fs _ o pr w1.fs ho hperf
    rw [hstat, hok]
    rfl

/-- C7.  Batch fault isolation in `run_due`: every due task yields exactly
one result entry carrying its identity; a task whose action raises yields a
`fail` entry; and the loop body on a raising action catches the exception,
reschedules the task (null on a scheduling failure) and emits the synthetic
fail entry — so the remaining tasks of the batch are still processed, each
with its own entry. -/
theorem batch_fault_isolation (data_dir : String) (w : World) (due : List Task)
    (rid : String → String) (sa fi : Timestamp)
    (outcomes : String → ActionOutcome) (sched : String → Option Timestamp) :
    (run_due_exec data_dir w due rid sa fi outcomes sched).2.length = due.length ∧
    (∀ p ∈ (run_due_exec data_dir w due rid sa fi outcomes sched).2.zip due,
      p.1.task_id = p.2.id ∧ p.1.name = p.2.name ∧
      (action_raises (outcomes p.2.id) = true → p.1.status = "fail")) ∧
    (∀ w' t, action_raises (outcomes t.id) = true →
      (t.tool = "exec" ∨ t.tool = "gh" ∨ t.tool = "http_request") →
      run_due_step data_dir w' t (rid t.id) sa fi (outcomes t.id) sched =
        (⟨set_next_run (create_run w'.store (rid t.id) t.id sa
            (resolve_output_path data_dir t.output_path) (startMeta t)) fi t.id
            (sched t.schedule), w'.fs⟩,
          synthetic_fail t (raise_message (outcomes t.id)))) := by
  have main : ∀ (l : List Task) (w1 : World),
      (run_due_exec data_dir w1 l rid sa fi outcomes sched).2.length = l.length ∧
      ∀ p ∈ (run_due_exec data_dir w1 l rid sa fi outcomes sched).2.zip l,
        p.1.task_id = p.2.id ∧ p.1.name = p.2.name ∧
        (action_raises (outcomes p.2.id) = true → p.1.status = "fail") := by
    intro l
    induction l with
    | nil => intro w1; exact ⟨rfl, by simp [run_due_exec]⟩
    | cons t rest ih =>
      intro w1
      constructor
      · simp only [run_due_exec, List.length_cons]
        rw [(ih _).1]
      · intro p hp
        simp only [run_due_exec, List.zip_cons_cons, List.mem_cons] at hp
        rcases hp with hp | hp
        · subst hp
          exact run_due_step_fields data_dir w1 t (rid t.id) sa fi
            (outcomes t.id) sched
        · exact (ih _).2 p hp
  exact ⟨(main due w).1, (main due w).2,
    fun w' t ho htool => run_due_step_raises data_dir w' t (rid t.id) sa fi
      (outcomes t.id) sched ho htool⟩

/-- Witness for C7: a two-task batch whose first action raises; both tasks
report, the raiser as a synthetic `fail`, and the loop-body equation holds
at the raising task. -/
theorem batch_fault_isolation_witness :
    (run_due_exec "/d" w7 [t2task, taskB] rid7 1 2 outcomes7 schedNone).2.length =
      [t2task, taskB].length ∧
    ((synthetic_fail t2task "boom").task_id = t2task.id ∧
      (synthetic_fail t2task "boom").status = "fail") ∧
    run_due_step "/d" w7 t2task (rid7 "t2") 1 2 (outcomes7 "t2") schedNone =
      (⟨set_next_run (create_run w7.store (rid7 "t2") "t2" 1
          (resolve_output_path "/d" t2task.output_path) (startMeta t2task)) 2 "t2"
          (schedNone t2task.schedule), w7.fs⟩,
        synthetic_fail t2task (raise_message (outcomes7 "t2"))) := by
  have h := batch_fault_isolation "/d" w7 [t2task, taskB] rid7 1 2 outcomes7 schedNone
  refine ⟨h.1, ?_, ?_⟩
  · have h2 := h.2.1 (synthetic_fail t2task "boom", t2task) (by decide)
    exact ⟨h2.1, h2.2.2 (by decide)⟩
  · exact h.2.2 w7 t2task (by decide) (by decide)

/-- Any association row for a marker puts its task id among the
member ids of the marker. -/
theorem mem_marker_member_ids (st : Store) (m : Marker) (tid : String)
    (h : ∃ mt ∈ st.marker_tasks, mt.marker_id = m.marker_id ∧ mt.task_id = tid) :
    tid ∈ marker_member_ids st m := by
  obtain ⟨mt, hmt, h1, h2⟩ := h
  unfold marker_member_ids
  rw [List.mem_map]
  refine ⟨mt, ?_, h2⟩
  rw [(List.perm_insertionSort _ _).mem_iff]
  exact List.mem_filter.mpr ⟨hmt, by simp [h1]⟩

/-- A member with no stored run at all is reported `missing` and forces the
whole marker report to not-green. -/
theorem marker_status_missing_member (st : Store) (mname tid : String)
    (m : Marker) (hm : get_marker st mname = some m)
    (htid : tid ∈ marker_member_ids st m)
    (hruns : ∀ r ∈ st.runs, r.task_id ≠ tid) :
    ∃ rep, marker_status st mname = Except.ok rep ∧ rep.green = false ∧
      MemberReport.mk tid "missing" none ∈ rep.tasks := by
  have hlat : latest_qualifying_run st.runs tid m.created_at = none := by
    rw [(latest_qualifying_run_spec st.runs tid m.created_at).2]
    rintro x hx ⟨h1, _⟩
    exact hruns x hx h1
  have hok : member_ok st.runs m.created_at tid = false := by
    unfold member_ok
    rw [hlat]
  unfold marker_status
  rw [hm]
  refine ⟨_, rfl, ?_, ?_⟩
  · have hall : (marker_member_ids st m).all (member_ok st.runs m.created_at) =
        false := by
      rw [List.all_eq_false]
      exact ⟨tid, htid, by simp [hok]⟩
    simp only [hall]
    cases (marker_member_ids st m).isEmpty <;> simp
  · rw [List.mem_map]
    refine ⟨tid, htid, ?_⟩
    unfold member_report
    rw [hlat]

/-- C10.  Adding a task id that references no stored task to an existing
marker succeeds (the declared foreign key is not enforced): the phantom id
becomes a member, no task row appears, and as long as no run carries that
id, `marker_status` reports it `missing` and the marker as not green. -/
theorem phantom_member_not_green (st : Store) (now : Timestamp)
    (mname tid : String) (m : Marker)
    (hm : get_marker st mname = some m)
    (_hphantom : ∀ t ∈ st.tasks, t.id ≠ tid) :
    ∃ st', add_task_to_marker st now mname tid = Except.ok st' ∧
      st'.tasks = st.tasks ∧ st'.markers = st.markers ∧
      tid ∈ marker_member_ids st' m ∧
      ∀ runs', (∀ r ∈ runs', r.task_id ≠ tid) →
        ∃ rep, marker_status { st' with runs := runs' } mname = Except.ok rep ∧
          rep.green = false ∧ MemberReport.mk tid "missing" none ∈ rep.tasks := by
  have hstep : ∃ st', add_task_to_marker st now mname tid = Except.ok st' ∧
      st'.tasks = st.tasks ∧ st'.markers = st.markers ∧
      tid ∈ marker_member_ids st' m := by
    by_cases hmem : st.marker_tasks.any (fun mt =>
        decide (mt.marker_id = m.marker_id) && decide (mt.task_id = tid)) = true
    · obtain ⟨mt, hmt, hc⟩ := List.any_eq_true.mp hmem
      rw [Bool.and_eq_true, decide_eq_true_eq, decide_eq_true_eq] at hc
      refine ⟨st, ?_, rfl, rfl,
        mem_marker_member_ids st m tid ⟨mt, hmt, hc.1, hc.2⟩⟩
      simp only [add_task_to_marker, hm, hmem, if_true]
    · rw [Bool.not_eq_true] at hmem
      refine ⟨{ st with marker_tasks :=
          st.marker_tasks ++ [⟨m.marker_id, tid, now⟩] }, ?_, rfl, rfl,
        mem_marker_member_ids _ m tid
          ⟨⟨m.marker_id, tid, now⟩,
            List.mem_append_right _ (List.mem_singleton_self _), rfl, rfl⟩⟩
      simp only [add_task_to_marker, hm, hmem, Bool.false_eq_true, if_false]
  obtain ⟨st', hadd, htasks, hmarkers, hmem⟩ := hstep
  refine ⟨st', hadd, htasks, hmarkers, hmem, ?_⟩
  intro runs' hruns
  have hm' : get_marker { st' with runs := runs' } mname = some m := by
    unfold get_marker at hm ⊢
    simpa [hmarkers] using hm
  have hmem' : tid ∈ marker_member_ids { st' with runs := runs' } m := hmem
  exact marker_status_missing_member _ mname tid m hm' hmem' hruns

/-- Witness for C10: the empty-task store `cstM` with active marker `M`
accepts the phantom id `ghost`, which then blocks green. -/
theorem phantom_member_not_green_witness :
    ∃ st', add_task_to_marker cstM 5 "M" "ghost" = Except.ok st' ∧
      st'.tasks = cstM.tasks ∧ st'.markers = cstM.markers ∧
      "ghost" ∈ marker_member_ids st' markerM ∧
      ∀ runs', (∀ r ∈ runs', r.task_id ≠ "ghost") →
        ∃ rep, marker_status { st' with runs := runs' } "M" = Except.ok rep ∧
          rep.green = false ∧
          MemberReport.mk "ghost" "missing" none ∈ rep.tasks :=
  phantom_member_not_green cstM 5 "M" "ghost" markerM (by decide) (by decide)

end TaskGuardian
